import Mathlib

/-!
Shallow embedding of the amfoss/root nightly attendance/streak job and its
leaderboard-refresh integration, with proofs of the spec claims.

The embedding follows the Rust sources:
  * src/attendance/scheduled_task.rs : scheduled_task, update_attendance_streak
  * src/main.rs                      : scheduled_task, schedule_task_at_midnight,
                                       update_cp_ratings
  * src/graphql/mutations.rs         : update_streak

Database tables are lists of rows; each sqlx query is translated into an
explicit operation on those lists.  Fallible operations (network lookups,
store round-trips) are driven by explicit failure oracles so that the
error-isolation structure of the Rust code is preserved.
-/

namespace Root

/-! ## Calendar

chrono NaiveDate / NaiveDateTime in the fixed timezone (Asia/Kolkata).
Every date-valued column and every day/month computation of the job goes
through these types.  Seconds-of-day are a Nat; a valid datetime has
secs < 86400. -/

/-- Proleptic-Gregorian leap-year test, as used by chrono for NaiveDate. -/
def isLeap (y : Int) : Bool :=
  y % 4 == 0 && (y % 100 != 0 || y % 400 == 0)

/-- Number of days in month m (1..12) of year y. -/
def daysInMonth (y : Int) (m : Nat) : Nat :=
  if m = 2 then (if isLeap y then 29 else 28)
  else if m = 4 ∨ m = 6 ∨ m = 9 ∨ m = 11 then 30
  else 31

/-- Calendar date (chrono NaiveDate). -/
structure Date where
  year : Int
  month : Nat
  day : Nat
deriving DecidableEq, Repr

/-- Previous calendar day (chrono pred). -/
def Date.pred (d : Date) : Date :=
  if 1 < d.day then ⟨d.year, d.month, d.day - 1⟩
  else if 1 < d.month then ⟨d.year, d.month - 1, daysInMonth d.year (d.month - 1)⟩
  else ⟨d.year - 1, 12, 31⟩

/-- chrono NaiveDateTime: a date plus the second-of-day (0 ≤ secs < 86400
for valid values). -/
structure DateTime where
  date : Date
  secs : Nat
deriving DecidableEq, Repr

/-- Subtraction of n seconds (n ≤ 86400) from a NaiveDateTime, as performed
by chrono checked_sub_signed: borrow one calendar day when the
second-of-day underflows. -/
def DateTime.subSecs (dt : DateTime) (n : Nat) : DateTime :=
  if n ≤ dt.secs then ⟨dt.date, dt.secs - n⟩
  else ⟨dt.date.pred, dt.secs + 86400 - n⟩

/-- Date used as yesterday by update_attendance_streak
(src/attendance/scheduled_task.rs lines 110-113): today minus 12 hours,
then the date component. -/
def yesterdayOf (today : DateTime) : Date :=
  (today.subSecs 43200).date

/-- Date written by the specification for the presence query: today minus
exactly one calendar day.  Stated from the spec text, for comparison with
yesterdayOf which is translated from the code. -/
def spec_yesterday (today : DateTime) : Date :=
  today.date.pred

/-- Month key: result of date_trunc with month precision, i.e. the
(year, month) pair identifying a calendar month. -/
structure Month where
  year : Int
  month : Nat
deriving DecidableEq, Repr

/-- Month key of a date. -/
def Date.monthKey (d : Date) : Month :=
  ⟨d.year, d.month⟩

/-! ## Database rows -/

/-- Row of the Attendance table as written by the seeder: columns
(id, date, timein, timeout, is_present); times are seconds-of-day. -/
structure AttRow where
  memberId : Int
  date : Date
  timein : Nat
  timeout : Nat
  isPresent : Bool
deriving DecidableEq, Repr

/-- Row of the AttendanceStreak table: columns (member_id, month, streak). -/
structure StreakRow where
  memberId : Int
  month : Month
  streak : Int
deriving DecidableEq, Repr

/-- Database state touched by the nightly job.  lcStats / cfStats model the
per-member leaderboard stat rows; leaderboardVersion models the global
leaderboard recomputation. -/
structure DB where
  attendance : List AttRow
  streaks : List StreakRow
  lcStats : List (Int × Int)
  cfStats : List (Int × Int)
  leaderboardVersion : Nat
deriving DecidableEq, Repr

/-! ## Table operations -/

/-- Composite-key match on the Attendance table: (id, date). -/
def attKeyMatch (mid : Int) (d : Date) (r : AttRow) : Bool :=
  r.memberId == mid && r.date == d

/-- Present-count query of update_attendance_streak: number of Attendance
rows with the given (id, date) and is_present = true. -/
def countPresent (att : List AttRow) (mid : Int) (d : Date) : Nat :=
  (att.filter (fun r => attKeyMatch mid d r && r.isPresent)).length

/-- Number of Attendance rows with the given composite key. -/
def countAtt (att : List AttRow) (mid : Int) (d : Date) : Nat :=
  (att.filter (attKeyMatch mid d)).length

/-- Key match on the AttendanceStreak table: (member_id, month). -/
def streakKeyMatch (mid : Int) (mo : Month) (r : StreakRow) : Bool :=
  r.memberId == mid && r.month == mo

/-- SELECT streak FROM AttendanceStreak WHERE member_id AND month. -/
def getStreak (rows : List StreakRow) (mid : Int) (mo : Month) : Option Int :=
  (rows.find? (streakKeyMatch mid mo)).map (·.streak)

/-- Modelled from the spec: the INSERT INTO AttendanceStreak issued by the
month-start step carries no ON CONFLICT clause, so its outcome on a
pre-existing key is decided by the table's unique constraint, which lives
in the migrations, outside src/.  Per the spec (exactly one StreakState row
per member per calendar month; the insert is conditional/idempotent) the
key (member_id, month) is unique, hence the INSERT errors on a duplicate
key; the Rust code discards that error, leaving the table unchanged. -/
def insertStreakIfAbsent (rows : List StreakRow) (mid : Int) (mo : Month)
    (v : Int) : List StreakRow :=
  if (rows.find? (streakKeyMatch mid mo)).isSome then rows
  else rows ++ [⟨mid, mo, v⟩]

/-- UPDATE AttendanceStreak SET streak = v WHERE member_id AND month. -/
def setStreak (rows : List StreakRow) (mid : Int) (mo : Month)
    (v : Int) : List StreakRow :=
  rows.map (fun r => if streakKeyMatch mid mo r then { r with streak := v } else r)

/-! ## Streak engine (update_attendance_streak) -/

/-- Failure oracle for the database round-trips inside
update_attendance_streak: the present-count query, the streak lookup, the
streak UPDATE and the month-start INSERT can each fail; the Rust code logs
and performs no mutation in each failure case. -/
structure StreakEnv where
  countFail : Bool
  lookupFail : Bool
  updateFail : Bool
  insertFail : Bool
deriving DecidableEq, Repr

/-- Oracle stating that every database round-trip succeeds. -/
def StreakEnv.allOk : StreakEnv :=
  ⟨false, false, false, false⟩

/-- Month-start step of update_attendance_streak (lines 115-127): on the
first day of a month, insert an AttendanceStreak row with streak 0 keyed by
(member_id, month of today); the insert error on an existing key is
discarded. -/
def monthStartStep (env : StreakEnv) (memberId : Int) (today : DateTime)
    (db : DB) : DB :=
  if today.date.day == 1 && !env.insertFail then
    { db with streaks := insertStreakIfAbsent db.streaks memberId today.date.monthKey 0 }
  else db

/-- update_attendance_streak (src/attendance/scheduled_task.rs lines
106-189): month-start step, then the present-count query for yesterday
(today minus 12 hours); on count exactly 1, read the streak for the current
month and, when a row exists, write streak + 1 back; every other count and
every query failure performs no mutation. -/
def update_attendance_streak (env : StreakEnv) (memberId : Int)
    (today : DateTime) (db : DB) : DB :=
  let yesterday := yesterdayOf today
  let db1 := monthStartStep env memberId today db
  if env.countFail then db1
  else if countPresent db1.attendance memberId yesterday == 1 then
    if env.lookupFail then db1
    else
      match getStreak db1.streaks memberId today.date.monthKey with
      | some s =>
          if env.updateFail then db1
          else { db1 with streaks := setStreak db1.streaks memberId today.date.monthKey (s + 1) }
      | none => db1
  else db1

/-! ## Helper lemmas about the table operations -/

/-- find? over a map whose function preserves the predicate. -/
theorem find?_map_pres {α : Type} {f : α → α} {p : α → Bool} (l : List α)
    (hf : ∀ x, p (f x) = p x) : (l.map f).find? p = (l.find? p).map f := by
  rw [List.find?_map]
  have h : (p ∘ f) = p := funext hf
  rw [h]

/-- Existence of a matching row follows from a successful streak lookup. -/
theorem find?_isSome_of_getStreak {rows : List StreakRow} {B : Int} {mo : Month}
    {n : Int} (h : getStreak rows B mo = some n) :
    (rows.find? (streakKeyMatch B mo)).isSome := by
  unfold getStreak at h
  cases hf : rows.find? (streakKeyMatch B mo) <;> simp [hf] at h ⊢

/-- Absence of a matching row follows from a failed streak lookup. -/
theorem find?_eq_none_of_getStreak {rows : List StreakRow} {B : Int} {mo : Month}
    (h : getStreak rows B mo = none) :
    rows.find? (streakKeyMatch B mo) = none := by
  unfold getStreak at h
  cases hf : rows.find? (streakKeyMatch B mo) <;> simp [hf] at h ⊢

/-- setStreak does not change which rows match a streak key. -/
theorem streakKeyMatch_set (mid : Int) (mo : Month) (v : Int) (B : Int)
    (mo' : Month) (r : StreakRow) :
    streakKeyMatch B mo'
        (if streakKeyMatch mid mo r then { r with streak := v } else r)
      = streakKeyMatch B mo' r := by
  split <;> simp [streakKeyMatch]

/-- Writing a streak value makes the subsequent lookup of the same key
return that value, provided a row for the key exists. -/
theorem getStreak_setStreak_self {rows : List StreakRow} {mid : Int}
    {mo : Month} {r : StreakRow} (v : Int)
    (h : rows.find? (streakKeyMatch mid mo) = some r) :
    getStreak (setStreak rows mid mo v) mid mo = some v := by
  unfold getStreak setStreak
  rw [find?_map_pres rows (streakKeyMatch_set mid mo v mid mo), h]
  have hp := List.find?_some h
  simp [hp]

/-- Writing a streak value leaves lookups of every other key unchanged. -/
theorem getStreak_setStreak_other {rows : List StreakRow} {mid B : Int}
    {mo mo' : Month} (v : Int) (hne : ¬(B = mid ∧ mo' = mo)) :
    getStreak (setStreak rows mid mo v) B mo' = getStreak rows B mo' := by
  unfold getStreak setStreak
  rw [find?_map_pres rows (streakKeyMatch_set mid mo v B mo')]
  cases hfind : rows.find? (streakKeyMatch B mo') with
  | none => simp
  | some r =>
    have hp := List.find?_some hfind
    have hq : streakKeyMatch mid mo r = false := by
      rcases hb : streakKeyMatch mid mo r with _ | _
      · rfl
      · exfalso
        apply hne
        unfold streakKeyMatch at hp hb
        simp at hp hb
        exact ⟨by rw [← hp.1, hb.1], by rw [← hp.2, hb.2]⟩
    simp [hq]

/-- The conditional insert preserves every successful lookup. -/
theorem getStreak_insert_pres {rows : List StreakRow} {mid B : Int}
    {mo mo' : Month} {v n : Int} (h : getStreak rows B mo' = some n) :
    getStreak (insertStreakIfAbsent rows mid mo v) B mo' = some n := by
  unfold insertStreakIfAbsent
  split
  · exact h
  · unfold getStreak at h ⊢
    cases hfind : rows.find? (streakKeyMatch B mo') with
    | none => rw [hfind] at h; simp at h
    | some r =>
      rw [List.find?_append, hfind]
      rw [hfind] at h
      simpa using h

/-- The month-start step preserves every successful lookup. -/
theorem getStreak_monthStart {env : StreakEnv} {mid : Int} {today : DateTime}
    {db : DB} {B : Int} {mo : Month} {n : Int}
    (h : getStreak db.streaks B mo = some n) :
    getStreak (monthStartStep env mid today db).streaks B mo = some n := by
  unfold monthStartStep
  split
  · exact getStreak_insert_pres h
  · exact h

/-- The month-start step never touches the attendance table. -/
theorem monthStartStep_attendance (env : StreakEnv) (mid : Int)
    (today : DateTime) (db : DB) :
    (monthStartStep env mid today db).attendance = db.attendance := by
  unfold monthStartStep
  split <;> rfl

/-- When a streak row for (member, month of today) already exists, the
month-start step is the identity on the whole database. -/
theorem monthStartStep_of_exists {env : StreakEnv} {mid : Int}
    {today : DateTime} {db : DB}
    (h : (db.streaks.find? (streakKeyMatch mid today.date.monthKey)).isSome) :
    monthStartStep env mid today db = db := by
  have h2 : insertStreakIfAbsent db.streaks mid today.date.monthKey 0 = db.streaks := by
    unfold insertStreakIfAbsent
    rw [if_pos h]
  unfold monthStartStep
  split
  · rw [h2]
  · rfl

/-- Case analysis on update_attendance_streak: the run either stops after the
month-start step, or additionally rewrites the current month's streak row
from some value s to s + 1. -/
theorem update_attendance_streak_cases (env : StreakEnv) (mid : Int)
    (today : DateTime) (db : DB) :
    update_attendance_streak env mid today db = monthStartStep env mid today db ∨
    ∃ s, getStreak (monthStartStep env mid today db).streaks mid today.date.monthKey
           = some s ∧
      update_attendance_streak env mid today db =
        { monthStartStep env mid today db with
            streaks := setStreak (monthStartStep env mid today db).streaks
              mid today.date.monthKey (s + 1) } := by
  simp only [update_attendance_streak]
  by_cases h1 : env.countFail
  · left; simp [h1]
  · simp only [h1, if_false, Bool.false_eq_true]
    by_cases h2 : countPresent (monthStartStep env mid today db).attendance mid
        (yesterdayOf today) == 1
    · simp only [h2, if_true]
      by_cases h3 : env.lookupFail
      · left; simp [h3]
      · simp only [h3, if_false, Bool.false_eq_true]
        cases hg : getStreak (monthStartStep env mid today db).streaks mid
            today.date.monthKey with
        | none => left; rfl
        | some s =>
          by_cases h4 : env.updateFail
          · left; simp [h4]
          · right
            exact ⟨s, rfl, by simp [h4]⟩
    · left; simp [h2]

/-- Definitional characterization of update_attendance_streak when every
database round-trip succeeds. -/
theorem update_attendance_streak_allOk (mid : Int) (today : DateTime) (db : DB) :
    update_attendance_streak StreakEnv.allOk mid today db =
      (if countPresent (monthStartStep StreakEnv.allOk mid today db).attendance
            mid (yesterdayOf today) == 1 then
        match getStreak (monthStartStep StreakEnv.allOk mid today db).streaks
            mid today.date.monthKey with
        | some s =>
            { monthStartStep StreakEnv.allOk mid today db with
                streaks := setStreak (monthStartStep StreakEnv.allOk mid today db).streaks
                  mid today.date.monthKey (s + 1) }
        | none => monthStartStep StreakEnv.allOk mid today db
      else monthStartStep StreakEnv.allOk mid today db) := rfl

/-! ## Claim theorems for the streak engine -/

/-- C1 (counterexample): on 2024-03-01 at 00:00, member 42 with no streak
row and a present AttendanceRecord for 2024-02-29 ends the run with streak
counter 1, not 0 — the code increments the freshly reset row in the same
run, contradicting the claim that the counter equals 0 after a month-start
reset even when the previous day shows presence. -/
theorem c1_reset_counterexample :
    getStreak (update_attendance_streak StreakEnv.allOk 42 ⟨⟨2024, 3, 1⟩, 0⟩
        ⟨[⟨42, ⟨2024, 2, 29⟩, 0, 0, true⟩], [], [], [], 0⟩).streaks
        42 ⟨2024, 3⟩ ≠ some 0 ∧
    getStreak (update_attendance_streak StreakEnv.allOk 42 ⟨⟨2024, 3, 1⟩, 0⟩
        ⟨[⟨42, ⟨2024, 2, 29⟩, 0, 0, true⟩], [], [], [], 0⟩).streaks
        42 ⟨2024, 3⟩ = some 1 := by
  decide

/-- C1 (amended): when the run date is the 1st of a month and no streak row
exists for (member, this month), the run creates the row with counter 0 and
then, in the same run, increments it to 1 exactly when the presence query
for yesterday (today minus 12 hours) counts exactly one present record; the
counter therefore ends at 0 only when that count differs from 1. -/
theorem c1_month_start_reset (mid : Int) (today : DateTime) (db : DB)
    (h1 : today.date.day = 1)
    (h2 : getStreak db.streaks mid today.date.monthKey = none) :
    getStreak (update_attendance_streak StreakEnv.allOk mid today db).streaks
        mid today.date.monthKey =
      some (if countPresent db.attendance mid (yesterdayOf today) = 1 then 1 else 0) := by
  have hfind : db.streaks.find? (streakKeyMatch mid today.date.monthKey) = none :=
    find?_eq_none_of_getStreak h2
  have happ : (monthStartStep StreakEnv.allOk mid today db).streaks
      = db.streaks ++ [⟨mid, today.date.monthKey, 0⟩] := by
    unfold monthStartStep insertStreakIfAbsent StreakEnv.allOk
    simp [h1, hfind]
  have hatt : (monthStartStep StreakEnv.allOk mid today db).attendance
      = db.attendance := monthStartStep_attendance _ _ _ _
  have hfind1 : (monthStartStep StreakEnv.allOk mid today db).streaks.find?
      (streakKeyMatch mid today.date.monthKey) = some ⟨mid, today.date.monthKey, 0⟩ := by
    rw [happ, List.find?_append, hfind]
    simp [streakKeyMatch]
  have hget0 : getStreak (monthStartStep StreakEnv.allOk mid today db).streaks
      mid today.date.monthKey = some 0 := by
    unfold getStreak
    rw [hfind1]
    rfl
  rw [update_attendance_streak_allOk, hatt]
  by_cases hc : countPresent db.attendance mid (yesterdayOf today) = 1
  · have hcb : (countPresent db.attendance mid (yesterdayOf today) == 1) = true := by
      simp [hc]
    rw [hcb, if_pos rfl, hget0, if_pos hc]
    have := getStreak_setStreak_self (0 + 1 : Int) hfind1
    simpa using this
  · have hcb : (countPresent db.attendance mid (yesterdayOf today) == 1) = false := by
      simp [hc]
    rw [hcb, if_neg (by simp), if_neg hc]
    exact hget0

/-- C1 (witness for the amended theorem): member 7 on 2024-05-01 at
midnight with an empty database ends with streak counter 0 for May, since
no present record exists for 2024-04-30. -/
theorem c1_month_start_reset_witness :
    getStreak (update_attendance_streak StreakEnv.allOk 7 ⟨⟨2024, 5, 1⟩, 0⟩
        ⟨[], [], [], [], 0⟩).streaks 7 (Date.monthKey ⟨2024, 5, 1⟩) =
      some (if countPresent [] 7 (yesterdayOf ⟨⟨2024, 5, 1⟩, 0⟩) = 1 then 1 else 0) :=
  c1_month_start_reset 7 ⟨⟨2024, 5, 1⟩, 0⟩ ⟨[], [], [], [], 0⟩ (by decide) (by decide)

/-- C2 (counterexample): at 13:00 fixed-timezone time on 2024-03-15, the
date used as yesterday by the presence query is 2024-03-15 itself, not
2024-03-14 — the code subtracts 12 hours, not one calendar day, so the
claim fails for runs at or after noon. -/
theorem c2_yesterday_counterexample :
    yesterdayOf ⟨⟨2024, 3, 15⟩, 46800⟩ ≠ spec_yesterday ⟨⟨2024, 3, 15⟩, 46800⟩ ∧
    yesterdayOf ⟨⟨2024, 3, 15⟩, 46800⟩ = ⟨2024, 3, 15⟩ := by
  decide

/-- C2 (amended): the date used as yesterday equals the run date minus one
calendar day exactly when the run executes before 12:00 in the fixed
timezone (the code subtracts 12 hours from the run instant); at or after
noon it equals the run date itself.  The scheduled shortly-after-midnight
run falls in the first case. -/
theorem c2_yesterday_characterization (today : DateTime) :
    yesterdayOf today =
      if today.secs < 43200 then today.date.pred else today.date := by
  by_cases h : 43200 ≤ today.secs
  · rw [if_neg (by omega)]
    unfold yesterdayOf DateTime.subSecs
    rw [if_pos h]
  · rw [if_pos (by omega)]
    unfold yesterdayOf DateTime.subSecs
    rw [if_neg h]

/-- C3: on the 1st of a month, if a streak row for (member, this month)
already exists with counter n, the month-start step leaves the whole
database — in particular that row's counter — unchanged: the insert is
conditional on the key being absent and never clobbers an existing row. -/
theorem c3_month_start_conditional (env : StreakEnv) (mid : Int)
    (today : DateTime) (db : DB) (n : Int)
    (h1 : today.date.day = 1)
    (h2 : getStreak db.streaks mid today.date.monthKey = some n) :
    monthStartStep env mid today db = db ∧
    getStreak (monthStartStep env mid today db).streaks mid today.date.monthKey
      = some n := by
  have heq : monthStartStep env mid today db = db :=
    monthStartStep_of_exists (find?_isSome_of_getStreak h2)
  exact ⟨heq, by rw [heq]; exact h2⟩

/-- C3 (witness): member 3 on 2024-07-01 with an existing July row holding
counter 4; the month-start step leaves the database untouched. -/
theorem c3_month_start_conditional_witness :
    monthStartStep StreakEnv.allOk 3 ⟨⟨2024, 7, 1⟩, 60⟩
        ⟨[], [⟨3, ⟨2024, 7⟩, 4⟩], [], [], 0⟩ =
      ⟨[], [⟨3, ⟨2024, 7⟩, 4⟩], [], [], 0⟩ ∧
    getStreak (monthStartStep StreakEnv.allOk 3 ⟨⟨2024, 7, 1⟩, 60⟩
        ⟨[], [⟨3, ⟨2024, 7⟩, 4⟩], [], [], 0⟩).streaks 3
        (Date.monthKey ⟨2024, 7, 1⟩) = some 4 :=
  c3_month_start_conditional StreakEnv.allOk 3 ⟨⟨2024, 7, 1⟩, 60⟩
    ⟨[], [⟨3, ⟨2024, 7⟩, 4⟩], [], [], 0⟩ 4 (by decide) (by decide)

/-- C4: with an existing streak row holding n for the current month, a
present-count of exactly 1 for yesterday yields counter n + 1 after the
run, and any other count (0 included) leaves the entire database unchanged
— absence never resets the counter and anomalous counts cause no
mutation. -/
theorem c4_streak_increment_law (mid : Int) (today : DateTime) (db : DB) (n : Int)
    (h : getStreak db.streaks mid today.date.monthKey = some n) :
    (countPresent db.attendance mid (yesterdayOf today) = 1 →
      getStreak (update_attendance_streak StreakEnv.allOk mid today db).streaks
          mid today.date.monthKey = some (n + 1)) ∧
    (countPresent db.attendance mid (yesterdayOf today) ≠ 1 →
      update_attendance_streak StreakEnv.allOk mid today db = db) := by
  have hms : monthStartStep StreakEnv.allOk mid today db = db :=
    monthStartStep_of_exists (find?_isSome_of_getStreak h)
  obtain ⟨r, hr⟩ : ∃ r, db.streaks.find? (streakKeyMatch mid today.date.monthKey)
      = some r := by
    have := find?_isSome_of_getStreak h
    cases hf : db.streaks.find? (streakKeyMatch mid today.date.monthKey)
    · rw [hf] at this; simp at this
    · exact ⟨_, rfl⟩
  constructor
  · intro hc
    have hcb : (countPresent db.attendance mid (yesterdayOf today) == 1) = true := by
      simp [hc]
    rw [update_attendance_streak_allOk, hms, hcb, if_pos rfl, h]
    exact getStreak_setStreak_self (n + 1) hr
  · intro hc
    have hcb : (countPresent db.attendance mid (yesterdayOf today) == 1) = false := by
      simp [hc]
    rw [update_attendance_streak_allOk, hms, hcb, if_neg (by simp)]

/-- C4 (witness): member 7 with a February-2024 row holding 5 and one
present record for 2024-02-14 ends the 2024-02-15 midnight run with
counter 6. -/
theorem c4_streak_increment_law_witness :
    countPresent [⟨7, ⟨2024, 2, 14⟩, 0, 0, true⟩] 7
        (yesterdayOf ⟨⟨2024, 2, 15⟩, 0⟩) = 1 ∧
    getStreak (update_attendance_streak StreakEnv.allOk 7 ⟨⟨2024, 2, 15⟩, 0⟩
        ⟨[⟨7, ⟨2024, 2, 14⟩, 0, 0, true⟩], [⟨7, ⟨2024, 2⟩, 5⟩], [], [], 0⟩).streaks
        7 (Date.monthKey ⟨2024, 2, 15⟩) = some (5 + 1) :=
  ⟨by decide,
    (c4_streak_increment_law 7 ⟨⟨2024, 2, 15⟩, 0⟩
        ⟨[⟨7, ⟨2024, 2, 14⟩, 0, 0, true⟩], [⟨7, ⟨2024, 2⟩, 5⟩], [], [], 0⟩ 5
        (by decide)).1 (by decide)⟩

/-- C9: a streak counter stored for any (member, month) never decreases
across a run of update_attendance_streak, whatever the failure pattern of
the database round-trips: the only mutations are the conditional insert of
a fresh zero row and the rewrite of an existing counter s to s + 1. -/
theorem c9_streak_monotone (env : StreakEnv) (mid : Int) (today : DateTime)
    (db : DB) (B : Int) (mo : Month) (n : Int)
    (h : getStreak db.streaks B mo = some n) :
    ∃ n', getStreak (update_attendance_streak env mid today db).streaks B mo
        = some n' ∧ n ≤ n' := by
  have h1 : getStreak (monthStartStep env mid today db).streaks B mo = some n :=
    getStreak_monthStart h
  rcases update_attendance_streak_cases env mid today db with heq | ⟨s, hs, heq⟩
  · exact ⟨n, by rw [heq]; exact h1, le_refl n⟩
  · by_cases hk : B = mid ∧ mo = today.date.monthKey
    · obtain ⟨r, hr⟩ : ∃ r, (monthStartStep env mid today db).streaks.find?
          (streakKeyMatch mid today.date.monthKey) = some r := by
        have := find?_isSome_of_getStreak hs
        cases hf : (monthStartStep env mid today db).streaks.find?
            (streakKeyMatch mid today.date.monthKey)
        · rw [hf] at this; simp at this
        · exact ⟨_, rfl⟩
      have hsn : s = n := by
        rw [hk.1, hk.2] at h1
        rw [h1] at hs
        exact (Option.some_inj.mp hs).symm
      refine ⟨n + 1, ?_, by omega⟩
      rw [heq, hk.1, hk.2, hsn]
      exact getStreak_setStreak_self (n + 1) hr
    · refine ⟨n, ?_, le_refl n⟩
      rw [heq]
      have hne : ¬(B = mid ∧ mo = today.date.monthKey) := hk
      rw [getStreak_setStreak_other (s + 1) hne]
      exact h1

/-- C9 (witness): member 9 holds counter 3 for June 2024; after the
2024-06-20 run with one present record for 2024-06-19 the counter is 4,
not less than 3. -/
theorem c9_streak_monotone_witness :
    ∃ n', getStreak (update_attendance_streak StreakEnv.allOk 9 ⟨⟨2024, 6, 20⟩, 0⟩
        ⟨[⟨9, ⟨2024, 6, 19⟩, 0, 0, true⟩], [⟨9, ⟨2024, 6⟩, 3⟩], [], [], 0⟩).streaks
        9 ⟨2024, 6⟩ = some n' ∧ (3 : Int) ≤ n' :=
  c9_streak_monotone StreakEnv.allOk 9 ⟨⟨2024, 6, 20⟩, 0⟩
    ⟨[⟨9, ⟨2024, 6, 19⟩, 0, 0, true⟩], [⟨9, ⟨2024, 6⟩, 3⟩], [], [], 0⟩ 9 ⟨2024, 6⟩ 3
    (by decide)

/-! ## Attendance seeder (scheduled_task, both revisions)

INSERT INTO Attendance (id, date, timein, timeout, is_present)
VALUES ($1, $2, 00:00:00, 00:00:00, false)
ON CONFLICT (id, date) DO NOTHING -/

/-- Per-member seeding step of scheduled_task: insert a default absent row
for (member, today) unless one already exists; an existing key makes the
statement a no-op (ON CONFLICT DO NOTHING), not an error. -/
def seed_attendance (memberId : Int) (today : Date) (att : List AttRow) : List AttRow :=
  if att.any (attKeyMatch memberId today) then att
  else att ++ [⟨memberId, today, 0, 0, false⟩]

/-- C5: seeding is idempotent — the second call for the same (member, date)
is a no-op — and, starting from a state with no row for the key, one call
leaves exactly one row for that key, with presence false and sentinel
00:00:00 in/out times. -/
theorem c5_idempotent_seeding (mid : Int) (d : Date) (att : List AttRow) :
    seed_attendance mid d (seed_attendance mid d att) = seed_attendance mid d att ∧
    (countAtt att mid d = 0 →
      (seed_attendance mid d att).filter (attKeyMatch mid d)
        = [⟨mid, d, 0, 0, false⟩]) := by
  have hself : attKeyMatch mid d ⟨mid, d, 0, 0, false⟩ = true := by
    simp [attKeyMatch]
  constructor
  · by_cases h : att.any (attKeyMatch mid d)
    · have hfix : seed_attendance mid d att = att := by
        unfold seed_attendance
        rw [if_pos h]
      rw [hfix]
      exact hfix
    · have hfix : seed_attendance mid d att = att ++ [⟨mid, d, 0, 0, false⟩] := by
        unfold seed_attendance
        rw [if_neg h]
      rw [hfix]
      have h2 : (att ++ [(⟨mid, d, 0, 0, false⟩ : AttRow)]).any (attKeyMatch mid d)
          = true := by
        rw [List.any_append]
        simp [hself]
      unfold seed_attendance
      rw [if_pos h2]
  · intro hcount
    have hnil : att.filter (attKeyMatch mid d) = [] := by
      unfold countAtt at hcount
      exact List.length_eq_zero.mp hcount
    have hany : att.any (attKeyMatch mid d) = false := by
      cases ha : att.any (attKeyMatch mid d)
      · rfl
      · exfalso
        obtain ⟨x, hx, hpx⟩ := List.any_eq_true.mp ha
        have : x ∈ att.filter (attKeyMatch mid d) := List.mem_filter.mpr ⟨hx, hpx⟩
        rw [hnil] at this
        exact absurd this (List.not_mem_nil x)
    unfold seed_attendance
    rw [if_neg (by rw [hany]; exact Bool.false_ne_true)]
    rw [List.filter_append, hnil]
    simp [hself]

/-- C5 (witness): seeding member 1 for 2024-01-02 in an empty table leaves
exactly the one default row. -/
theorem c5_idempotent_seeding_witness :
    (seed_attendance 1 ⟨2024, 1, 2⟩ []).filter (attKeyMatch 1 ⟨2024, 1, 2⟩)
      = [⟨1, ⟨2024, 1, 2⟩, 0, 0, false⟩] :=
  (c5_idempotent_seeding 1 ⟨2024, 1, 2⟩ []).2 (by decide)

/-! ## Scheduler (schedule_task_at_midnight, main.rs lines 117-133)

now = Local::now(); tomorrow = now.date + 1 day; next_midnight = tomorrow
at 00:00:00; sleep = (next_midnight - now).num_seconds + 60.  Instants are
seconds since an epoch; the machine-local civil time of instant t under
UTC offset off has day index fdiv (t + off) 86400 and second-of-day
emod (t + off) 86400. -/

/-- Machine-local civil day index of instant t under UTC offset off. -/
def localDayNumber (t off : Int) : Int := (t + off).fdiv 86400

/-- Machine-local second-of-day of instant t under UTC offset off. -/
def localSecondOfDay (t off : Int) : Int := (t + off).emod 86400

/-- duration_until_midnight of schedule_task_at_midnight: tomorrow's
00:00:00 minus now, in seconds, both in the machine-local timezone. -/
def duration_until_midnight (t off : Int) : Int :=
  (localDayNumber t off + 1) * 86400
    - (localDayNumber t off * 86400 + localSecondOfDay t off)

/-- sleep_duration of schedule_task_at_midnight (main.rs line 127): the
duration until the next machine-local midnight plus 60 seconds. -/
def sleep_duration (t off : Int) : Int := duration_until_midnight t off + 60

/-- Wait contract written by the specification: the non-negative duration
from now to the next 00:00:00 in the given fixed timezone, strictly future
when now is exactly midnight.  Stated from the spec text, for comparison
with sleep_duration which is translated from the code. -/
def spec_wait_until_next_midnight (t tzOff : Int) : Int :=
  if localSecondOfDay t tzOff = 0 then 86400 else 86400 - localSecondOfDay t tzOff

/-- UTC offset of the fixed timezone Asia/Kolkata, +05:30, in seconds. -/
def kolkataOffsetSecs : Int := 19800

/-- C6 (counterexample): for a UTC machine at the epoch instant the
scheduler computes a wait of 86460 seconds, while the spec's wait to the
next fixed-timezone (Asia/Kolkata) midnight is 66600 seconds — the code
waits for the machine-local midnight plus an extra 60 seconds, not for the
fixed-timezone midnight. -/
theorem c6_wait_counterexample :
    sleep_duration 0 0 = 86460 ∧
    spec_wait_until_next_midnight 0 kolkataOffsetSecs = 66600 ∧
    sleep_duration 0 0 ≠ spec_wait_until_next_midnight 0 kolkataOffsetSecs := by
  decide

/-- C6 (amended): the computed wait equals the strictly-future duration to
the next machine-local midnight plus 60 seconds — the job fires once per
day about one minute after machine-local midnight, not exactly at the
fixed-timezone midnight; the underlying duration is non-negative. -/
theorem c6_wait_machine_midnight (t off : Int) :
    sleep_duration t off = spec_wait_until_next_midnight t off + 60 ∧
    0 ≤ duration_until_midnight t off := by
  have h0 : 0 ≤ localSecondOfDay t off := Int.emod_nonneg _ (by decide)
  have h1 : localSecondOfDay t off < 86400 := Int.emod_lt_of_pos _ (by decide)
  unfold sleep_duration duration_until_midnight spec_wait_until_next_midnight
  constructor
  · by_cases h : localSecondOfDay t off = 0
    · rw [if_pos h, h]
      ring
    · rw [if_neg h]
      ring
  · omega

/-! ## Status-update streak mutation (update_streak, mutations.rs 263-328) -/

/-- Row of the StreakUpdate table: columns (id, streak, max_streak), both
counters nullable. -/
structure StreakUpdateRow where
  id : Int
  streak : Option Int
  max_streak : Option Int
deriving DecidableEq, Repr

/-- update_streak mutation (src/graphql/mutations.rs lines 263-328): look
up the member's StreakUpdate row; when present, write streak + 1 and
max(streak + 1, max_streak) if has_sent_update, else reset streak to 0
keeping max_streak; when absent, insert a fresh (id, 0, 0) row.  NULL
counters read as 0. -/
def update_streak (rows : List StreakUpdateRow) (id : Int)
    (has_sent_update : Bool) : List StreakUpdateRow :=
  match rows.find? (fun r => r.id == id) with
  | some mem =>
      let current_streak := mem.streak.getD 0
      let max_streak := mem.max_streak.getD 0
      let p := if has_sent_update then
          (current_streak + 1, max (current_streak + 1) max_streak)
        else (0, max_streak)
      rows.map (fun r => if r.id == id
        then { r with streak := some p.1, max_streak := some p.2 }
        else r)
  | none => rows ++ [⟨id, some 0, some 0⟩]

/-- C10: on a member with an existing StreakUpdate row, the stored
max_streak after the mutation is at least the stored max_streak before
(NULL reading as 0), whether has_sent_update is true or false; and when no
row exists, the first call inserts streak 0 and max_streak 0 regardless of
has_sent_update. -/
theorem c10_max_streak_monotone (rows : List StreakUpdateRow) (id : Int)
    (b : Bool) :
    (∀ mem, rows.find? (fun r => r.id == id) = some mem →
      ∃ r', (update_streak rows id b).find? (fun r => r.id == id) = some r' ∧
        mem.max_streak.getD 0 ≤ r'.max_streak.getD 0) ∧
    (rows.find? (fun r => r.id == id) = none →
      update_streak rows id b = rows ++ [⟨id, some 0, some 0⟩]) := by
  constructor
  · intro mem hmem
    unfold update_streak
    rw [hmem]
    have hpres : ∀ x : StreakUpdateRow,
        ((if x.id == id
          then { x with
                  streak := some (if b then
                      (mem.streak.getD 0 + 1,
                        max (mem.streak.getD 0 + 1) (mem.max_streak.getD 0))
                    else (0, mem.max_streak.getD 0)).1,
                  max_streak := some (if b then
                      (mem.streak.getD 0 + 1,
                        max (mem.streak.getD 0 + 1) (mem.max_streak.getD 0))
                    else (0, mem.max_streak.getD 0)).2 }
          else x).id == id) = (x.id == id) := by
      intro x
      split <;> simp_all
    rw [find?_map_pres rows hpres, hmem]
    have hp := List.find?_some hmem
    refine ⟨_, rfl, ?_⟩
    cases b <;> simp [hp, le_max_right]
  · intro h
    unfold update_streak
    rw [h]

/-- C10 (witness): member 5 with row (streak 2, max_streak 3) and
has_sent_update true ends with max_streak 6 at least 3. -/
theorem c10_max_streak_monotone_witness :
    ∃ r', (update_streak [⟨5, some 2, some 3⟩] 5 true).find?
        (fun r => r.id == 5) = some r' ∧
      ((⟨5, some 2, some 3⟩ : StreakUpdateRow)).max_streak.getD 0
        ≤ r'.max_streak.getD 0 :=
  (c10_max_streak_monotone [⟨5, some 2, some 3⟩] 5 true).1 ⟨5, some 2, some 3⟩
    (by decide)

/-! ## Leaderboard refresher (update_cp_ratings, main.rs lines 188-225) -/

/-- Row of the Member table as read by main.rs (src/db/member.rs): the
cached rating column is textual. -/
structure CpMember where
  id : Int
  rollno : String
  name : String
  hostel : String
  email : String
  sex : String
  year : Int
  macaddress : String
  leaderboard_id : String
  cp_platform : String
  rating : String
deriving DecidableEq, Repr

/-- Per-member rating selection of update_cp_ratings (main.rs lines
197-207): dispatch on the platform string; a lookup error (.ok()) and a
missing value (.flatten()) both collapse to none, as does an unsupported
platform. -/
def cp_rating_lookup (cfFetch lcFetch : String → Except Unit (Option Int))
    (m : CpMember) : Option Int :=
  if m.cp_platform = "Codeforces" then ((cfFetch m.leaderboard_id).toOption).join
  else if m.cp_platform = "LeetCode" then ((lcFetch m.leaderboard_id).toOption).join
  else none

/-- update_cp_ratings (main.rs lines 188-225): for every member of the
roster, select a rating; on some value write it to the member's rating
column unless the store round-trip fails (logged, skipped); on none leave
the member untouched; always continue with the remaining members. -/
def update_cp_ratings (cfFetch lcFetch : String → Except Unit (Option Int))
    (storeFail : Int → Bool) (members : List CpMember) : List CpMember :=
  members.map (fun m =>
    match cp_rating_lookup cfFetch lcFetch m with
    | some r => if storeFail m.id then m else { m with rating := toString r }
    | none => m)

/-- C7: a member whose external lookup errors, returns no value, or whose
platform selector is unsupported keeps its cached rating unchanged, and the
members before and after it are still processed exactly as they would be
alone — the refresher skips, never aborts. -/
theorem c7_refresher_skip_isolated
    (cfFetch lcFetch : String → Except Unit (Option Int))
    (storeFail : Int → Bool) (xs ys : List CpMember) (m : CpMember)
    (h : (m.cp_platform = "Codeforces" ∧
            (cfFetch m.leaderboard_id = .error () ∨
             cfFetch m.leaderboard_id = .ok none)) ∨
         (m.cp_platform = "LeetCode" ∧
            (lcFetch m.leaderboard_id = .error () ∨
             lcFetch m.leaderboard_id = .ok none)) ∨
         (m.cp_platform ≠ "Codeforces" ∧ m.cp_platform ≠ "LeetCode")) :
    update_cp_ratings cfFetch lcFetch storeFail (xs ++ m :: ys)
      = update_cp_ratings cfFetch lcFetch storeFail xs
        ++ m :: update_cp_ratings cfFetch lcFetch storeFail ys := by
  have hnone : cp_rating_lookup cfFetch lcFetch m = none := by
    unfold cp_rating_lookup
    rcases h with ⟨hp, hcf | hcf⟩ | ⟨hp, hlc | hlc⟩ | ⟨h1, h2⟩
    · rw [if_pos hp, hcf]
      rfl
    · rw [if_pos hp, hcf]
      rfl
    · rw [if_neg (by simp [hp]), if_pos hp, hlc]
      rfl
    · rw [if_neg (by simp [hp]), if_pos hp, hlc]
      rfl
    · rw [if_neg h1, if_neg h2]
  unfold update_cp_ratings
  rw [List.map_append, List.map_cons, hnone]

/-- C7 (witness): member 9 with a linked Codeforces handle whose external
call returns no data keeps its rating, alone in the roster. -/
theorem c7_refresher_skip_isolated_witness :
    update_cp_ratings (fun _ => Except.ok none) (fun _ => Except.ok none)
        (fun _ => false)
        ([] ++ ⟨9, "r", "n", "h", "e", "s", 1, "m", "handle", "Codeforces", "1200"⟩ :: [])
      = update_cp_ratings (fun _ => Except.ok none) (fun _ => Except.ok none)
          (fun _ => false) []
        ++ ⟨9, "r", "n", "h", "e", "s", 1, "m", "handle", "Codeforces", "1200"⟩ ::
          update_cp_ratings (fun _ => Except.ok none) (fun _ => Except.ok none)
            (fun _ => false) [] :=
  c7_refresher_skip_isolated (fun _ => Except.ok none) (fun _ => Except.ok none)
    (fun _ => false) [] []
    ⟨9, "r", "n", "h", "e", "s", 1, "m", "handle", "Codeforces", "1200"⟩
    (Or.inl ⟨rfl, Or.inr rfl⟩)

/-! ## Job orchestrator (scheduled_task, src/attendance/scheduled_task.rs)

The per-member loop body seeds today's attendance row, refreshes the
member's LeetCode and Codeforces stats when a username row exists,
recomputes the global leaderboard, and runs update_attendance_streak; every
failure is logged and confined to its own step.  To reason about fault
isolation, the streak engine is first characterized as a function of the
attendance and streak rows alone. -/

/-- Streak-table result of the month-start step, as a function of the
streak rows alone. -/
def monthStartRows (env : StreakEnv) (mid : Int) (today : DateTime)
    (rows : List StreakRow) : List StreakRow :=
  if today.date.day == 1 && !env.insertFail then
    insertStreakIfAbsent rows mid today.date.monthKey 0
  else rows

/-- Streak-table result of update_attendance_streak, as a function of the
attendance and streak rows alone. -/
def updateStreakRows (env : StreakEnv) (mid : Int) (today : DateTime)
    (att : List AttRow) (rows : List StreakRow) : List StreakRow :=
  if env.countFail then monthStartRows env mid today rows
  else if countPresent att mid (yesterdayOf today) == 1 then
    if env.lookupFail then monthStartRows env mid today rows
    else
      match getStreak (monthStartRows env mid today rows) mid
          today.date.monthKey with
      | some s =>
          if env.updateFail then monthStartRows env mid today rows
          else setStreak (monthStartRows env mid today rows) mid
            today.date.monthKey (s + 1)
      | none => monthStartRows env mid today rows
  else monthStartRows env mid today rows

/-- Streak rows of the month-start step. -/
theorem monthStartStep_streaks (env : StreakEnv) (mid : Int)
    (today : DateTime) (db : DB) :
    (monthStartStep env mid today db).streaks
      = monthStartRows env mid today db.streaks := by
  unfold monthStartStep monthStartRows
  split <;> rfl

/-- The month-start step never touches the LeetCode stats. -/
theorem monthStartStep_lcStats (env : StreakEnv) (mid : Int)
    (today : DateTime) (db : DB) :
    (monthStartStep env mid today db).lcStats = db.lcStats := by
  unfold monthStartStep
  split <;> rfl

/-- The month-start step never touches the Codeforces stats. -/
theorem monthStartStep_cfStats (env : StreakEnv) (mid : Int)
    (today : DateTime) (db : DB) :
    (monthStartStep env mid today db).cfStats = db.cfStats := by
  unfold monthStartStep
  split <;> rfl

/-- update_attendance_streak writes only the streak table. -/
theorem update_attendance_streak_fields (env : StreakEnv) (mid : Int)
    (today : DateTime) (db : DB) :
    (update_attendance_streak env mid today db).attendance = db.attendance ∧
    (update_attendance_streak env mid today db).lcStats = db.lcStats ∧
    (update_attendance_streak env mid today db).cfStats = db.cfStats := by
  rcases update_attendance_streak_cases env mid today db with h | ⟨s, _, h⟩ <;>
    rw [h] <;>
    exact ⟨monthStartStep_attendance env mid today db,
      monthStartStep_lcStats env mid today db,
      monthStartStep_cfStats env mid today db⟩

/-- The streak rows written by update_attendance_streak are a function of
the prior attendance and streak rows. -/
theorem update_attendance_streak_streaks (env : StreakEnv) (mid : Int)
    (today : DateTime) (db : DB) :
    (update_attendance_streak env mid today db).streaks
      = updateStreakRows env mid today db.attendance db.streaks := by
  have hatt := monthStartStep_attendance env mid today db
  have hms := monthStartStep_streaks env mid today db
  by_cases h1 : env.countFail = true
  · simp [update_attendance_streak, updateStreakRows, h1, hms]
  · by_cases h2 : (countPresent db.attendance mid (yesterdayOf today) == 1) = true
    · by_cases h3 : env.lookupFail = true
      · simp [update_attendance_streak, updateStreakRows, h1, h2, h3, hatt, hms]
      · cases hg : getStreak (monthStartRows env mid today db.streaks) mid
            today.date.monthKey with
        | none =>
          have hg2 : getStreak (monthStartStep env mid today db).streaks mid
              today.date.monthKey = none := by rw [hms]; exact hg
          simp [update_attendance_streak, updateStreakRows, h1, h2, h3, hatt,
            hms, hg, hg2]
        | some s =>
          have hg2 : getStreak (monthStartStep env mid today db).streaks mid
              today.date.monthKey = some s := by rw [hms]; exact hg
          by_cases h4 : env.updateFail = true
          · simp [update_attendance_streak, updateStreakRows, h1, h2, h3, h4,
              hatt, hms, hg, hg2]
          · simp [update_attendance_streak, updateStreakRows, h1, h2, h3, h4,
              hatt, hms, hg, hg2]
    · simp [update_attendance_streak, updateStreakRows, h1, h2, hatt, hms]

/-- Failure/outcome oracle for one member's processing in scheduled_task:
the attendance INSERT can fail; the leetcode_stats / codeforces_stats row
lookups yield a username row or nothing (no row and a failed query both
skip the fetch); each stat fetch can fail; the global leaderboard
recomputation can fail; and the streak engine has its own oracle.  The
lcVal / cfVal payloads are the stat values a successful fetch stores. -/
structure MemberEnv where
  seedFail : Bool
  lcRow : Option String
  lcFetchFail : Bool
  lcVal : Int
  cfRow : Option String
  cfFetchFail : Bool
  cfVal : Int
  lbFail : Bool
  streak : StreakEnv
deriving DecidableEq, Repr

/-- Modelled from the spec: fetch_leetcode_stats and fetch_codeforces_stats
(crate::leaderboard::fetch_stats, not under src/) fetch the member's
profile from the external platform and refresh the member's stats row in
place, or fail with an external lookup error.  setStat is that in-place
per-member refresh. -/
def setStat (stats : List (Int × Int)) (mid v : Int) : List (Int × Int) :=
  stats.map (fun p => if p.1 == mid then (p.1, v) else p)

/-- Seeding step of the member loop: the attendance table after the
idempotent insert, unchanged when the insert round-trip fails (the error is
logged and skipped). -/
def seedStep (e : MemberEnv) (mid : Int) (d : Date) (db : DB) : DB :=
  { db with attendance :=
      if e.seedFail then db.attendance else seed_attendance mid d db.attendance }

/-- LeetCode refresh step of the member loop: when a username row exists
and the fetch succeeds, refresh the member's stats row; otherwise skip. -/
def lcStep (e : MemberEnv) (mid : Int) (db : DB) : DB :=
  { db with lcStats :=
      match e.lcRow with
      | some _ => if e.lcFetchFail then db.lcStats
          else setStat db.lcStats mid e.lcVal
      | none => db.lcStats }

/-- Codeforces refresh step of the member loop. -/
def cfStep (e : MemberEnv) (mid : Int) (db : DB) : DB :=
  { db with cfStats :=
      match e.cfRow with
      | some _ => if e.cfFetchFail then db.cfStats
          else setStat db.cfStats mid e.cfVal
      | none => db.cfStats }

/-- Modelled from the spec: update_leaderboard
(crate::leaderboard::update_leaderboard, not under src/) recomputes the
global leaderboard from the stats tables; it touches no per-member row, so
it is modelled as bumping a global version counter, skipped on failure. -/
def lbStep (e : MemberEnv) (db : DB) : DB :=
  { db with leaderboardVersion :=
      if e.lbFail then db.leaderboardVersion else db.leaderboardVersion + 1 }

/-- One iteration of the member loop of scheduled_task (lines 27-99): seed
today's attendance row, refresh LeetCode stats, refresh Codeforces stats,
recompute the leaderboard, then run update_attendance_streak; each step's
failure is logged and confined to that step. -/
def processMember (env : Int → MemberEnv) (today : DateTime) (db : DB)
    (mid : Int) : DB :=
  update_attendance_streak (env mid).streak mid today
    (lbStep (env mid)
      (cfStep (env mid) mid
        (lcStep (env mid) mid
          (seedStep (env mid) mid today.date db))))

/-- Member loop of scheduled_task (lines 23-102): process every roster
member in order; no per-member failure aborts the loop. -/
def scheduled_task (env : Int → MemberEnv) (today : DateTime)
    (members : List Int) (db : DB) : DB :=
  members.foldl (processMember env today) db

/-- Attendance table after one member's processing. -/
theorem processMember_attendance (env : Int → MemberEnv) (today : DateTime)
    (db : DB) (mid : Int) :
    (processMember env today db mid).attendance
      = (if (env mid).seedFail then db.attendance
         else seed_attendance mid today.date db.attendance) := by
  unfold processMember
  rw [(update_attendance_streak_fields _ _ _ _).1]
  rfl

/-- LeetCode stats after one member's processing. -/
theorem processMember_lcStats (env : Int → MemberEnv) (today : DateTime)
    (db : DB) (mid : Int) :
    (processMember env today db mid).lcStats
      = (match (env mid).lcRow with
         | some _ => if (env mid).lcFetchFail then db.lcStats
             else setStat db.lcStats mid (env mid).lcVal
         | none => db.lcStats) := by
  unfold processMember
  rw [(update_attendance_streak_fields _ _ _ _).2.1]
  rfl

/-- Codeforces stats after one member's processing. -/
theorem processMember_cfStats (env : Int → MemberEnv) (today : DateTime)
    (db : DB) (mid : Int) :
    (processMember env today db mid).cfStats
      = (match (env mid).cfRow with
         | some _ => if (env mid).cfFetchFail then db.cfStats
             else setStat db.cfStats mid (env mid).cfVal
         | none => db.cfStats) := by
  unfold processMember
  rw [(update_attendance_streak_fields _ _ _ _).2.2]
  rfl

/-- Streak table after one member's processing. -/
theorem processMember_streaks (env : Int → MemberEnv) (today : DateTime)
    (db : DB) (mid : Int) :
    (processMember env today db mid).streaks
      = updateStreakRows (env mid).streak mid today
          (if (env mid).seedFail then db.attendance
           else seed_attendance mid today.date db.attendance)
          db.streaks := by
  unfold processMember
  rw [update_attendance_streak_streaks]
  rfl

/-- Processing a member reads only that member's oracle entry. -/
theorem processMember_env_eq (env1 env2 : Int → MemberEnv) (today : DateTime)
    (db : DB) (B : Int) (henv : env1 B = env2 B) :
    processMember env1 today db B = processMember env2 today db B := by
  unfold processMember
  rw [henv]

/-- Projection of the database onto one member: every row keyed by that
member, with the global leaderboard version blanked.  Two databases with
equal projections agree on everything that member's processing reads and
writes. -/
def viewOf (db : DB) (B : Int) : DB :=
  ⟨db.attendance.filter (fun r => r.memberId == B),
   db.streaks.filter (fun r => r.memberId == B),
   db.lcStats.filter (fun p => p.1 == B),
   db.cfStats.filter (fun p => p.1 == B),
   0⟩

/-! ## Projection lemmas

Every per-member operation commutes with the projection onto that member
and leaves the projections of all other members untouched. -/

/-- any over a filter whose predicate is implied by the query. -/
theorem any_filter_of_imp {α : Type} (p q : α → Bool) (l : List α)
    (h : ∀ x, q x = true → p x = true) : (l.filter p).any q = l.any q := by
  rw [List.any_filter]
  congr 1
  funext a
  cases hq : q a
  · simp
  · simp [h a hq]

/-- find? over a filter whose predicate is implied by the query. -/
theorem find?_filter_of_imp {α : Type} (p q : α → Bool) (l : List α)
    (h : ∀ x, q x = true → p x = true) : (l.filter p).find? q = l.find? q := by
  rw [List.find?_filter]
  congr 1
  funext a
  cases hq : q a
  · simp [hq]
  · simp [hq, h a hq]

/-- filter over a filter whose predicate is implied by the inner one. -/
theorem filter_filter_of_imp {α : Type} (p q : α → Bool) (l : List α)
    (h : ∀ x, q x = true → p x = true) : (l.filter p).filter q = l.filter q := by
  rw [List.filter_filter]
  congr 1
  funext a
  cases hq : q a
  · simp [hq]
  · simp [hq, h a hq]

/-- Filtering twice with the same predicate filters once. -/
theorem filter_idem {α : Type} (p : α → Bool) (l : List α) :
    (l.filter p).filter p = l.filter p :=
  filter_filter_of_imp p p l (fun _ h => h)

/-- filter commutes with a map whose function preserves the predicate. -/
theorem filter_map_comm {α : Type} (f : α → α) (p : α → Bool) (l : List α)
    (hf : ∀ x, p (f x) = p x) : (l.map f).filter p = (l.filter p).map f := by
  have h : (p ∘ f) = p := funext hf
  rw [List.filter_map, h]

/-- filter ignores a map that is the identity on the rows it keeps. -/
theorem filter_map_invariant {α : Type} (f : α → α) (p : α → Bool) (l : List α)
    (hf : ∀ x, p (f x) = p x) (hid : ∀ x, p x = true → f x = id x) :
    (l.map f).filter p = l.filter p := by
  rw [filter_map_comm f p l hf]
  have h : ∀ x ∈ l.filter p, f x = id x := fun x hx =>
    hid x (List.of_mem_filter hx)
  rw [List.map_congr_left h, List.map_id]

/-- An attendance key match pins the member id. -/
theorem attKeyMatch_memberId {B : Int} {d : Date} (r : AttRow)
    (h : attKeyMatch B d r = true) : (r.memberId == B) = true := by
  simp only [attKeyMatch, Bool.and_eq_true] at h
  exact h.1

/-- A streak key match pins the member id. -/
theorem streakKeyMatch_memberId {B : Int} {mo : Month} (r : StreakRow)
    (h : streakKeyMatch B mo r = true) : (r.memberId == B) = true := by
  simp only [streakKeyMatch, Bool.and_eq_true] at h
  exact h.1

/-- Seeding a member commutes with the projection onto that member. -/
theorem seed_filter_self (B : Int) (d : Date) (att : List AttRow) :
    (seed_attendance B d att).filter (fun r => r.memberId == B)
      = seed_attendance B d (att.filter (fun r => r.memberId == B)) := by
  unfold seed_attendance
  rw [any_filter_of_imp _ _ att (fun x hx => attKeyMatch_memberId x hx)]
  split
  · rfl
  · rw [List.filter_append]
    simp

/-- Seeding a member leaves other members' projections untouched. -/
theorem seed_filter_other (m B : Int) (hne : m ≠ B) (d : Date)
    (att : List AttRow) :
    (seed_attendance m d att).filter (fun r => r.memberId == B)
      = att.filter (fun r => r.memberId == B) := by
  unfold seed_attendance
  split
  · rfl
  · rw [List.filter_append]
    simp [hne]

/-- Refreshing a member's stats commutes with that member's projection. -/
theorem setStat_filter_self (B v : Int) (s : List (Int × Int)) :
    (setStat s B v).filter (fun p => p.1 == B)
      = setStat (s.filter (fun p => p.1 == B)) B v := by
  unfold setStat
  exact filter_map_comm _ _ _ (fun x => by split <;> rfl)

/-- Refreshing a member's stats leaves other members' projections alone. -/
theorem setStat_filter_other (m B : Int) (hne : m ≠ B) (v : Int)
    (s : List (Int × Int)) :
    (setStat s m v).filter (fun p => p.1 == B)
      = s.filter (fun p => p.1 == B) := by
  unfold setStat
  apply filter_map_invariant
  · intro x
    split <;> rfl
  · intro x hx
    have hxB : x.1 = B := by simpa using hx
    have hxm : (x.1 == m) = false := by
      simp [hxB]
      exact fun hh => hne hh.symm
    simp [hxm]

/-- The conditional streak insert for a member commutes with that member's
projection. -/
theorem insertStreak_filter_self (B : Int) (mo : Month) (v : Int)
    (rows : List StreakRow) :
    (insertStreakIfAbsent rows B mo v).filter (fun r => r.memberId == B)
      = insertStreakIfAbsent (rows.filter (fun r => r.memberId == B)) B mo v := by
  unfold insertStreakIfAbsent
  rw [find?_filter_of_imp _ _ rows (fun x hx => streakKeyMatch_memberId x hx)]
  split
  · rfl
  · rw [List.filter_append]
    simp

/-- The conditional streak insert leaves other members' projections alone. -/
theorem insertStreak_filter_other (m B : Int) (hne : m ≠ B) (mo : Month)
    (v : Int) (rows : List StreakRow) :
    (insertStreakIfAbsent rows m mo v).filter (fun r => r.memberId == B)
      = rows.filter (fun r => r.memberId == B) := by
  unfold insertStreakIfAbsent
  split
  · rfl
  · rw [List.filter_append]
    simp [hne]

/-- The streak UPDATE for a member commutes with that member's projection. -/
theorem setStreak_filter_self (B : Int) (mo : Month) (v : Int)
    (rows : List StreakRow) :
    (setStreak rows B mo v).filter (fun r => r.memberId == B)
      = setStreak (rows.filter (fun r => r.memberId == B)) B mo v := by
  unfold setStreak
  exact filter_map_comm _ _ _ (fun x => by split <;> rfl)

/-- The streak UPDATE leaves other members' projections alone. -/
theorem setStreak_filter_other (m B : Int) (hne : m ≠ B) (mo : Month)
    (v : Int) (rows : List StreakRow) :
    (setStreak rows m mo v).filter (fun r => r.memberId == B)
      = rows.filter (fun r => r.memberId == B) := by
  unfold setStreak
  apply filter_map_invariant
  · intro x
    split <;> rfl
  · intro x hx
    have hxB : x.memberId = B := by simpa using hx
    have hk : streakKeyMatch m mo x = false := by
      unfold streakKeyMatch
      simp [hxB]
      exact fun hh => (hne hh.symm).elim
    simp [hk]

/-- The month-start step for a member commutes with that member's
projection. -/
theorem monthStartRows_filter_self (e : StreakEnv) (B : Int)
    (today : DateTime) (rows : List StreakRow) :
    (monthStartRows e B today rows).filter (fun r => r.memberId == B)
      = monthStartRows e B today (rows.filter (fun r => r.memberId == B)) := by
  unfold monthStartRows
  split
  · exact insertStreak_filter_self B today.date.monthKey 0 rows
  · rfl

/-- The month-start step leaves other members' projections alone. -/
theorem monthStartRows_filter_other (e : StreakEnv) (m B : Int) (hne : m ≠ B)
    (today : DateTime) (rows : List StreakRow) :
    (monthStartRows e m today rows).filter (fun r => r.memberId == B)
      = rows.filter (fun r => r.memberId == B) := by
  unfold monthStartRows
  split
  · exact insertStreak_filter_other m B hne today.date.monthKey 0 rows
  · rfl

/-- The streak lookup only reads the member's own projection. -/
theorem getStreak_filter (B : Int) (mo : Month) (rows : List StreakRow) :
    getStreak (rows.filter (fun r => r.memberId == B)) B mo
      = getStreak rows B mo := by
  unfold getStreak
  rw [find?_filter_of_imp _ _ rows (fun x hx => streakKeyMatch_memberId x hx)]

/-- The present-count query only reads the member's own projection. -/
theorem countPresent_filter (B : Int) (d : Date) (att : List AttRow) :
    countPresent (att.filter (fun r => r.memberId == B)) B d
      = countPresent att B d := by
  unfold countPresent
  rw [filter_filter_of_imp _ _ att (fun x hx => attKeyMatch_memberId x (by
    simp only [Bool.and_eq_true] at hx
    exact hx.1))]

/-- The whole streak engine for a member commutes with that member's
projection of both tables. -/
theorem updateStreakRows_filter_self (e : StreakEnv) (B : Int)
    (today : DateTime) (att : List AttRow) (rows : List StreakRow) :
    (updateStreakRows e B today att rows).filter (fun r => r.memberId == B)
      = updateStreakRows e B today (att.filter (fun r => r.memberId == B))
          (rows.filter (fun r => r.memberId == B)) := by
  have hscrut : getStreak (monthStartRows e B today
        (rows.filter (fun r => r.memberId == B))) B today.date.monthKey
      = getStreak (monthStartRows e B today rows) B today.date.monthKey := by
    rw [← monthStartRows_filter_self, getStreak_filter]
  unfold updateStreakRows
  rw [countPresent_filter]
  by_cases h1 : e.countFail = true
  · simp [h1, monthStartRows_filter_self]
  · by_cases h2 : (countPresent att B (yesterdayOf today) == 1) = true
    · by_cases h3 : e.lookupFail = true
      · simp [h1, h2, h3, monthStartRows_filter_self]
      · cases hg : getStreak (monthStartRows e B today rows) B
            today.date.monthKey with
        | none =>
          have hg2 := hscrut.trans hg
          simp [h1, h2, h3, hg, hg2, monthStartRows_filter_self]
        | some s =>
          have hg2 := hscrut.trans hg
          by_cases h4 : e.updateFail = true
          · simp [h1, h2, h3, h4, hg, hg2, monthStartRows_filter_self]
          · simp [h1, h2, h3, h4, hg, hg2, setStreak_filter_self,
              monthStartRows_filter_self]
    · simp [h1, h2, monthStartRows_filter_self]

/-- The whole streak engine leaves other members' projections alone. -/
theorem updateStreakRows_filter_other (e : StreakEnv) (m B : Int)
    (hne : m ≠ B) (today : DateTime) (att : List AttRow)
    (rows : List StreakRow) :
    (updateStreakRows e m today att rows).filter (fun r => r.memberId == B)
      = rows.filter (fun r => r.memberId == B) := by
  unfold updateStreakRows
  by_cases h1 : e.countFail = true
  · simp [h1, monthStartRows_filter_other e m B hne]
  · by_cases h2 : (countPresent att m (yesterdayOf today) == 1) = true
    · by_cases h3 : e.lookupFail = true
      · simp [h1, h2, h3, monthStartRows_filter_other e m B hne]
      · cases hg : getStreak (monthStartRows e m today rows) m
            today.date.monthKey with
        | none =>
          simp [h1, h2, h3, hg, monthStartRows_filter_other e m B hne]
        | some s =>
          by_cases h4 : e.updateFail = true
          · simp [h1, h2, h3, h4, hg, monthStartRows_filter_other e m B hne]
          · simp [h1, h2, h3, h4, hg, setStreak_filter_other m B hne,
              monthStartRows_filter_other e m B hne]
    · simp [h1, h2, monthStartRows_filter_other e m B hne]

/-- Processing another member leaves a member's projection untouched. -/
theorem processMember_view_frame (env : Int → MemberEnv) (today : DateTime)
    (db : DB) (m B : Int) (hne : m ≠ B) :
    viewOf (processMember env today db m) B = viewOf db B := by
  simp only [viewOf, DB.mk.injEq]
  refine ⟨?_, ?_, ?_, ?_, trivial⟩
  · rw [processMember_attendance]
    split
    · rfl
    · exact seed_filter_other m B hne today.date db.attendance
  · rw [processMember_streaks]
    exact updateStreakRows_filter_other (env m).streak m B hne today _ db.streaks
  · rw [processMember_lcStats]
    cases hrow : (env m).lcRow with
    | none => rfl
    | some u =>
      by_cases hf : (env m).lcFetchFail = true
      · simp [hf]
      · simp [hf, setStat_filter_other m B hne]
  · rw [processMember_cfStats]
    cases hrow : (env m).cfRow with
    | none => rfl
    | some u =>
      by_cases hf : (env m).cfFetchFail = true
      · simp [hf]
      · simp [hf, setStat_filter_other m B hne]

/-- Processing a member reads and writes only that member's projection:
running it on the projected database yields the same projection. -/
theorem processMember_view_self (env : Int → MemberEnv) (today : DateTime)
    (db : DB) (B : Int) :
    viewOf (processMember env today db B) B
      = viewOf (processMember env today (viewOf db B) B) B := by
  simp only [viewOf, DB.mk.injEq]
  refine ⟨?_, ?_, ?_, ?_, trivial⟩
  · rw [processMember_attendance, processMember_attendance]
    by_cases hs : (env B).seedFail = true
    · simp [hs, filter_idem]
    · simp [hs, seed_filter_self, filter_idem]
  · rw [processMember_streaks, processMember_streaks,
      updateStreakRows_filter_self, updateStreakRows_filter_self]
    by_cases hs : (env B).seedFail = true
    · simp [hs, filter_idem]
    · simp [hs, seed_filter_self, filter_idem]
  · rw [processMember_lcStats, processMember_lcStats]
    cases hrow : (env B).lcRow with
    | none => simp [filter_idem]
    | some u =>
      by_cases hf : (env B).lcFetchFail = true
      · simp [hf, filter_idem]
      · simp [hf, setStat_filter_self, filter_idem]
  · rw [processMember_cfStats, processMember_cfStats]
    cases hrow : (env B).cfRow with
    | none => simp [filter_idem]
    | some u =>
      by_cases hf : (env B).cfFetchFail = true
      · simp [hf, filter_idem]
      · simp [hf, setStat_filter_self, filter_idem]

/-- A member's projection after the whole run depends only on that member's
oracle entry and on that member's projection of the starting database. -/
theorem scheduled_task_view_eq (env1 env2 : Int → MemberEnv)
    (today : DateTime) (members : List Int) (B : Int)
    (henv : env1 B = env2 B) :
    ∀ db1 db2, viewOf db1 B = viewOf db2 B →
      viewOf (scheduled_task env1 today members db1) B
        = viewOf (scheduled_task env2 today members db2) B := by
  induction members with
  | nil => exact fun db1 db2 h => h
  | cons m t ih =>
    intro db1 db2 h
    have hstep : viewOf (processMember env1 today db1 m) B
        = viewOf (processMember env2 today db2 m) B := by
      by_cases hm : m = B
      · subst hm
        calc viewOf (processMember env1 today db1 m) m
            = viewOf (processMember env1 today (viewOf db1 m) m) m :=
              processMember_view_self env1 today db1 m
          _ = viewOf (processMember env1 today (viewOf db2 m) m) m := by rw [h]
          _ = viewOf (processMember env2 today (viewOf db2 m) m) m := by
              rw [processMember_env_eq env1 env2 today (viewOf db2 m) m henv]
          _ = viewOf (processMember env2 today db2 m) m :=
              (processMember_view_self env2 today db2 m).symm
      · rw [processMember_view_frame env1 today db1 m B hm,
          processMember_view_frame env2 today db2 m B hm]
        exact h
    exact ih (processMember env1 today db1 m) (processMember env2 today db2 m)
      hstep

/-- Seeding can only add rows for a key. -/
theorem countAtt_le_seed (m : Int) (d' : Date) (att : List AttRow) (B : Int)
    (d : Date) :
    countAtt att B d ≤ countAtt (seed_attendance m d' att) B d := by
  unfold seed_attendance
  split
  · exact le_refl _
  · unfold countAtt
    rw [List.filter_append, List.length_append]
    exact Nat.le_add_right _ _

/-- After seeding a member for a date, at least one row for that key
exists. -/
theorem one_le_countAtt_seed (B : Int) (d : Date) (att : List AttRow) :
    1 ≤ countAtt (seed_attendance B d att) B d := by
  unfold seed_attendance
  split
  · rename_i h
    obtain ⟨x, hx, hpx⟩ := List.any_eq_true.mp h
    have hmem : x ∈ att.filter (attKeyMatch B d) := List.mem_filter.mpr ⟨hx, hpx⟩
    unfold countAtt
    exact List.length_pos.mpr (List.ne_nil_of_mem hmem)
  · unfold countAtt
    rw [List.filter_append, List.length_append]
    have hone : (List.filter (attKeyMatch B d)
        [(⟨B, d, 0, 0, false⟩ : AttRow)]).length = 1 := by
      simp [attKeyMatch]
    omega

/-- One member's processing never removes attendance rows for any key. -/
theorem countAtt_le_processMember (env : Int → MemberEnv) (today : DateTime)
    (db : DB) (m B : Int) (d : Date) :
    countAtt db.attendance B d
      ≤ countAtt (processMember env today db m).attendance B d := by
  rw [processMember_attendance]
  split
  · exact le_refl _
  · exact countAtt_le_seed m today.date db.attendance B d

/-- The run never removes attendance rows for any key. -/
theorem countAtt_le_run (env : Int → MemberEnv) (today : DateTime)
    (members : List Int) (db : DB) (B : Int) (d : Date) :
    countAtt db.attendance B d
      ≤ countAtt (scheduled_task env today members db).attendance B d := by
  induction members generalizing db with
  | nil => exact le_refl _
  | cons m t ih =>
    exact le_trans (countAtt_le_processMember env today db m B d)
      (ih (processMember env today db m))

/-- C8: per-member fault isolation of the nightly run.  Member B's rows
(attendance, streaks, both stats tables) after the run are identical under
any two oracles agreeing on B — in particular when every other member's
lookups and stores all fail — and whenever B is on the roster and B's own
seeding round-trip succeeds, B's attendance row for today exists after the
run: no other member's failure aborts or skips B's steps. -/
theorem c8_member_isolation (env1 env2 : Int → MemberEnv) (today : DateTime)
    (members : List Int) (db : DB) (B : Int) (henv : env1 B = env2 B) :
    viewOf (scheduled_task env1 today members db) B
      = viewOf (scheduled_task env2 today members db) B ∧
    (B ∈ members → (env1 B).seedFail = false →
      1 ≤ countAtt (scheduled_task env1 today members db).attendance B
        today.date) := by
  constructor
  · exact scheduled_task_view_eq env1 env2 today members B henv db db rfl
  · intro hmem hseed
    obtain ⟨pre, post, rfl⟩ := List.append_of_mem hmem
    have hfold : scheduled_task env1 today (pre ++ B :: post) db
        = scheduled_task env1 today post
            (processMember env1 today (scheduled_task env1 today pre db) B) := by
      unfold scheduled_task
      rw [List.foldl_append]
      rfl
    rw [hfold]
    refine le_trans ?_ (countAtt_le_run env1 today post _ B today.date)
    rw [processMember_attendance]
    rw [if_neg (by rw [hseed]; exact Bool.false_ne_true)]
    exact one_le_countAtt_seed B today.date _

/-- C8 (witness): with members 1 and 2 on the roster, every operation of
member 1 failing and member 2 fully succeeding, member 2's rows after the
run equal those of the run where member 1 also succeeds, and member 2's
attendance row for the day exists. -/
theorem c8_member_isolation_witness :
    viewOf (scheduled_task
        (fun i => if i == 1 then
            ⟨true, none, true, 0, none, true, 0, true, ⟨true, true, true, true⟩⟩
          else ⟨false, some "u", false, 5, none, false, 0, false, StreakEnv.allOk⟩)
        ⟨⟨2024, 6, 20⟩, 0⟩ [1, 2] ⟨[], [], [(2, 0)], [], 0⟩) 2
      = viewOf (scheduled_task
        (fun i => if i == 1 then
            ⟨false, some "v", false, 7, none, false, 0, false, StreakEnv.allOk⟩
          else ⟨false, some "u", false, 5, none, false, 0, false, StreakEnv.allOk⟩)
        ⟨⟨2024, 6, 20⟩, 0⟩ [1, 2] ⟨[], [], [(2, 0)], [], 0⟩) 2 ∧
    1 ≤ countAtt (scheduled_task
        (fun i => if i == 1 then
            ⟨true, none, true, 0, none, true, 0, true, ⟨true, true, true, true⟩⟩
          else ⟨false, some "u", false, 5, none, false, 0, false, StreakEnv.allOk⟩)
        ⟨⟨2024, 6, 20⟩, 0⟩ [1, 2] ⟨[], [], [(2, 0)], [], 0⟩).attendance 2
        ⟨2024, 6, 20⟩ := by
  have h := c8_member_isolation
    (fun i => if i == 1 then
        ⟨true, none, true, 0, none, true, 0, true, ⟨true, true, true, true⟩⟩
      else ⟨false, some "u", false, 5, none, false, 0, false, StreakEnv.allOk⟩)
    (fun i => if i == 1 then
        ⟨false, some "v", false, 7, none, false, 0, false, StreakEnv.allOk⟩
      else ⟨false, some "u", false, 5, none, false, 0, false, StreakEnv.allOk⟩)
    ⟨⟨2024, 6, 20⟩, 0⟩ [1, 2] ⟨[], [], [(2, 0)], [], 0⟩ 2 (by decide)
  exact ⟨h.1, h.2 (by decide) (by decide)⟩

end Root
